import Mathlib

/-!
# Verification of the flowerpot path-addressed store (src/main.go)

Shallow embedding of the Go program in `src/main.go`: the `DataValue`
struct, its JSON codec (`json.Marshal` / `json.Unmarshal` with the
struct tags `content`, `content_type`, `data,omitempty`), the
Badger-backed store operations `storeValue` / `getValue` / `deleteValue`,
and the HTTP handlers `handleGet` / `handlePost` / `handlePut` /
`handleDelete`.

Modelling conventions:
* Go byte slices are `Option (List Nat)`: `none` is a nil slice,
  `some bs` a non-nil slice holding bytes `bs`.  Go distinguishes a nil
  slice from a non-nil empty one (`reflect.DeepEqual` separates them),
  and the spec's empty-vs-absent distinction for `binaryData` lives
  exactly there.
* `json.Marshal` of a `DataValue` always succeeds (the struct contains
  only strings and a byte slice) and produces a JSON object with fields
  `content`, `content_type`, and — because of the `omitempty` tag, only
  when `len(Data) > 0` — `data` holding the base64 transport of the
  bytes.  We model the marshalled blob at the JSON-object level as
  `EncodedValue` (base64 is a bijection on byte strings and the textual
  serialization is injective on these objects, so nothing observable is
  lost).  `json.Unmarshal` of such a blob restores the two strings and
  sets `Data` to the decoded bytes when the `data` field is present and
  leaves it `nil` (its zero value) when the field is absent.
* The Badger store is an association list from keys to marshalled
  blobs.  `Txn.Set`, `Txn.Delete` and `Txn.Get` return `ErrEmptyKey`
  on an empty key; `Txn.Get` returns `ErrKeyNotFound` when the key is
  unbound; `Txn.Delete` of an unbound key succeeds.  Each store
  operation runs in its own transaction (`db.Update` / `db.View`), so
  an operation is a plain function on the store state; engine I/O
  failures are not modelled.
* An HTTP response is its status code, its `Content-Type` header and
  its body bytes.  `http.Error` writes the message plus a newline with
  a `text/plain` content type.  The JSON success bodies are the
  serialization `encoding/json` produces for the Go string maps
  (keys sorted, trailing newline from `Encoder.Encode`).
-/

deriving instance DecidableEq for Except

namespace Flowerpot

/-- Byte strings as lists of naturals (each `< 256` in practice). -/
abbrev Bytes := List Nat

/-- The UTF-8 bytes of a string, as written by `w.Write([]byte(s))`. -/
def strBytes (s : String) : Bytes :=
  s.toUTF8.toList.map (fun b => b.toNat)

/-- Go struct `DataValue` (src/main.go lines 18-22).  `data` is `none`
for a nil Go slice and `some bs` for a non-nil slice with bytes `bs`. -/
structure DataValue where
  content : String
  contentType : String
  data : Option Bytes
deriving Repr, DecidableEq

/-- The JSON object `json.Marshal` produces for a `DataValue`:
`content` and `content_type` are always present; `data` is present
(with the bytes, transported as base64) exactly when it was kept by
`omitempty`. -/
structure EncodedValue where
  content : String
  content_type : String
  data : Option Bytes
deriving Repr, DecidableEq

/-- `json.Marshal` on a `DataValue`.  The `omitempty` tag drops the
`data` field whenever `len(Data) == 0`, which holds both for a nil
slice and for a non-nil empty one. -/
def jsonMarshal (v : DataValue) : EncodedValue :=
  { content := v.content
    content_type := v.contentType
    data := match v.data with
      | none => none
      | some bs => if bs.isEmpty then none else some bs }

/-- `json.Unmarshal` of a marshalled blob into a fresh `DataValue`:
the two strings are restored; `Data` receives the decoded bytes when
the `data` field is present and stays `nil` when it is absent. -/
def jsonUnmarshal (e : EncodedValue) : DataValue :=
  { content := e.content
    contentType := e.content_type
    data := e.data }

/-- Error classification surfaced by the store operations: Badger's
`ErrKeyNotFound` and `ErrEmptyKey` sentinels, and a decoding failure
for corrupt stored bytes (never produced on blobs written by
`jsonMarshal`, but part of the taxonomy `handleGet` branches on). -/
inductive StoreError
  | keyNotFound
  | emptyKey
  | decodingError
deriving Repr, DecidableEq

/-- The Badger key space: keys (paths) mapped to marshalled blobs.
`Txn.Set` replaces the binding wholesale, so at most one binding per
key ever exists. -/
abbrev Store := List (String × EncodedValue)

/-- Badger `Txn.Get`: `ErrEmptyKey` on the empty key, `ErrKeyNotFound`
when the key is unbound, otherwise the stored blob. -/
def txnGet (s : Store) (k : String) : Except StoreError EncodedValue :=
  if k = "" then .error .emptyKey
  else
    match s.find? (fun e => e.1 == k) with
    | some e => .ok e.2
    | none => .error .keyNotFound

/-- Badger `Txn.Set`: `ErrEmptyKey` on the empty key, otherwise the new
blob replaces any previous binding of the key. -/
def txnSet (s : Store) (k : String) (v : EncodedValue) : Except StoreError Store :=
  if k = "" then .error .emptyKey
  else .ok ((k, v) :: s.filter (fun e => e.1 != k))

/-- Badger `Txn.Delete`: `ErrEmptyKey` on the empty key, otherwise the
binding of the key (if any) is removed; deleting an unbound key is a
successful no-op. -/
def txnDelete (s : Store) (k : String) : Except StoreError Store :=
  if k = "" then .error .emptyKey
  else .ok (s.filter (fun e => e.1 != k))

/-- `Server.storeValue` (src/main.go lines 219-227): inside one write
transaction, marshal the value and set it under the key. -/
def storeValue (s : Store) (key : String) (value : DataValue) : Except StoreError Store :=
  txnSet s key (jsonMarshal value)

/-- `Server.deleteValue` (src/main.go lines 229-233): inside one write
transaction, delete the key. -/
def deleteValue (s : Store) (key : String) : Except StoreError Store :=
  txnDelete s key

/-- `Server.getValue` (src/main.go lines 235-254): inside one read-only
transaction (`db.View`), look the key up and unmarshal the stored
blob. -/
def getValue (s : Store) (key : String) : Except StoreError DataValue :=
  match txnGet s key with
  | .error e => .error e
  | .ok blob => .ok (jsonUnmarshal blob)

/-- An HTTP response: status code, `Content-Type` header (if set) and
body bytes. -/
structure Response where
  status : Nat
  contentType : Option String
  body : Bytes
deriving Repr, DecidableEq

/-- Go `http.Error`: plain-text content type, the message plus a
newline as body, and the given status code. -/
def httpError (msg : String) (code : Nat) : Response :=
  { status := code
    contentType := some "text/plain; charset=utf-8"
    body := strBytes (msg ++ "\n") }

/-- `Server.handleGet` (src/main.go lines 105-127).  `ErrKeyNotFound`
maps to 404, any other error to 500; on success the content type
header is the stored one, and the body is the binary payload when
`len(value.Data) > 0`, the text content otherwise.  The store
component of the result is the state after the request: `getValue`
runs in a read-only transaction, so it is the input state. -/
def handleGet (s : Store) (path : String) : Response × Store :=
  match getValue s path with
  | .error .keyNotFound =>
      (httpError ("Path \x27" ++ path ++ "\x27 not found") 404, s)
  | .error _ => (httpError "Database error" 500, s)
  | .ok value =>
      ( { status := 200
          contentType := some value.contentType
          body :=
            match value.data with
            | some bs => if bs.isEmpty then strBytes value.content else bs
            | none => strBytes value.content }
      , s)

/-- `Server.handlePost` (src/main.go lines 129-156).  The request body
is given already JSON-decoded: `none` when decoding failed, otherwise
the resulting `DataValue` (absent JSON fields are the Go zero values).
Empty `content_type` is rejected with 400 before the store is touched. -/
def handlePost (s : Store) (path : String) (body : Option DataValue) : Response × Store :=
  match body with
  | none => (httpError "Invalid JSON" 400, s)
  | some dataValue =>
      if dataValue.contentType = "" then
        (httpError "content_type is required" 400, s)
      else
        match storeValue s path dataValue with
        | .error _ => (httpError "Failed to store data" 500, s)
        | .ok s2 =>
            ( { status := 200
                contentType := some "application/json"
                body := strBytes ("\x7b\"message\":\"Data stored at path: "
                  ++ path ++ "\",\"status\":\"success\"\x7d\n") }
            , s2)

/-- `Server.handlePut` (src/main.go lines 158-191).  `body` is the raw
request body read by `io.ReadAll` (a non-nil slice, possibly empty);
`contentTypeHeader` is `r.Header.Get("Content-Type")`, which is the
empty string when the header is absent.  The stored value carries the
body as binary data and defaults the content type to
`application/octet-stream`. -/
def handlePut (s : Store) (path : String) (body : Bytes) (contentTypeHeader : String) :
    Response × Store :=
  match storeValue s path
      { content := ""
        contentType := if contentTypeHeader = "" then "application/octet-stream"
          else contentTypeHeader
        data := some body } with
  | .error _ => (httpError "Failed to store data" 500, s)
  | .ok s2 =>
      ( { status := 200
          contentType := some "application/json"
          body := strBytes ("\x7b\"message\":\"Data stored at path: " ++ path
            ++ "\",\"size\":\"" ++ toString body.length
            ++ " bytes\",\"status\":\"success\"\x7d\n") }
      , s2)

/-- `Server.handleDelete` (src/main.go lines 193-217): first check
existence with `getValue` (404 on `ErrKeyNotFound`, 500 on other
errors), and only then delete the key. -/
def handleDelete (s : Store) (path : String) : Response × Store :=
  match getValue s path with
  | .error .keyNotFound =>
      (httpError ("Path \x27" ++ path ++ "\x27 not found") 404, s)
  | .error _ => (httpError "Database error" 500, s)
  | .ok _ =>
      match deleteValue s path with
      | .error _ => (httpError "Failed to delete data" 500, s)
      | .ok s2 =>
          ( { status := 200
              contentType := some "application/json"
              body := strBytes ("\x7b\"message\":\"Data deleted at path: "
                ++ path ++ "\",\"status\":\"success\"\x7d\n") }
          , s2)

/-- A store-mutating request, for reasoning about which keys a history
of requests ever wrote. -/
inductive Op
  | put (path : String) (v : DataValue)
  | del (path : String)
deriving Repr, DecidableEq

/-- Whether an operation writes (puts) to the given path. -/
def writesTo (op : Op) (p : String) : Bool :=
  match op with
  | .put q _ => q == p
  | .del _ => false

/-- Effect of one operation on the store; a failing store call leaves
the state unchanged. -/
def applyOp (s : Store) : Op → Store
  | .put p v =>
      match storeValue s p v with
      | .ok s2 => s2
      | .error _ => s
  | .del p =>
      match deleteValue s p with
      | .ok s2 => s2
      | .error _ => s

/-- Run a history of operations from a given state. -/
def runOpsFrom (s : Store) (ops : List Op) : Store :=
  ops.foldl applyOp s

/-- Run a history of operations from the empty store: the state is
everything that was ever written. -/
def runOps (ops : List Op) : Store :=
  runOpsFrom [] ops

/-- No operation in the history puts a value at `p`. -/
def unwritten (p : String) (ops : List Op) : Bool :=
  ops.all (fun op => !writesTo op p)

/-! ## Helper lemmas -/

/-- The codec round-trips every value whose byte slice is not the
non-nil empty slice (`omitempty` collapses that one case to `nil`). -/
theorem marshal_unmarshal (v : DataValue) (h : v.data ≠ some []) :
    jsonUnmarshal (jsonMarshal v) = v := by
  obtain ⟨c, t, d⟩ := v
  cases d with
  | none => rfl
  | some bs =>
    cases bs with
    | nil => exact absurd rfl h
    | cons b l => rfl

/-- A successful `txnSet` means the key was non-empty and the result
is the new binding in front of the old store purged of that key. -/
theorem txnSet_ok {s s2 : Store} {k : String} {v : EncodedValue}
    (h : txnSet s k v = .ok s2) :
    k ≠ "" ∧ s2 = (k, v) :: s.filter (fun e => e.1 != k) := by
  by_cases hk : k = ""
  · rw [txnSet, if_pos hk] at h
    exact absurd h (by simp)
  · rw [txnSet, if_neg hk] at h
    exact ⟨hk, (Except.ok.injEq _ _ ▸ h).symm⟩

/-- A successful `txnDelete` means the key was non-empty and the
result is the old store purged of that key. -/
theorem txnDelete_ok {s s2 : Store} {k : String}
    (h : txnDelete s k = .ok s2) :
    k ≠ "" ∧ s2 = s.filter (fun e => e.1 != k) := by
  by_cases hk : k = ""
  · rw [txnDelete, if_pos hk] at h
    exact absurd h (by simp)
  · rw [txnDelete, if_neg hk] at h
    exact ⟨hk, (Except.ok.injEq _ _ ▸ h).symm⟩

/-- `find?` ignores a filter that keeps everything the search predicate
accepts. -/
theorem find?_filter_of_imp {α : Type} (P Q : α → Bool) (l : List α)
    (h : ∀ a, Q a = true → P a = true) :
    (l.filter P).find? Q = l.find? Q := by
  induction l with
  | nil => rfl
  | cons a t ih =>
    by_cases hQ : Q a = true
    · rw [List.filter_cons, if_pos (h a hQ), List.find?_cons_of_pos _ hQ,
        List.find?_cons_of_pos _ hQ]
    · by_cases hP : P a = true
      · rw [List.filter_cons, if_pos hP, List.find?_cons_of_neg _ hQ,
          List.find?_cons_of_neg _ hQ, ih]
      · rw [List.filter_cons, if_neg hP, List.find?_cons_of_neg _ hQ, ih]

/-- Reading back the key just set returns the blob just stored. -/
theorem txnGet_set_self (s : Store) (k : String) (v : EncodedValue) (hk : k ≠ "") :
    txnGet ((k, v) :: s.filter (fun e => e.1 != k)) k = .ok v := by
  rw [txnGet, if_neg hk, List.find?_cons_of_pos _ (by simp)]

/-- After purging a key, looking it up fails with `keyNotFound`. -/
theorem txnGet_filter_self (s : Store) (k : String) (hk : k ≠ "") :
    txnGet (s.filter (fun e => e.1 != k)) k = .error .keyNotFound := by
  rw [txnGet, if_neg hk]
  have : (s.filter (fun e => e.1 != k)).find? (fun e => e.1 == k) = none := by
    rw [List.find?_eq_none]
    intro e he
    have := (List.mem_filter.1 he).2
    simpa using this
  rw [this]

/-- Purging a key twice, with a fresh binding of that key in between,
is the same as purging it once. -/
theorem filter_cons_filter (s : Store) (k : String) (v : EncodedValue) :
    (((k, v) :: s.filter (fun e => e.1 != k)).filter (fun e => e.1 != k)) =
      s.filter (fun e => e.1 != k) := by
  rw [List.filter_cons, if_neg (by simp), List.filter_filter]
  simp

/-- On a key every stored entry misses, `txnGet` fails with
`keyNotFound`. -/
theorem txnGet_unbound {s : Store} {k : String} (hk : k ≠ "")
    (h : ∀ e ∈ s, e.1 ≠ k) : txnGet s k = .error .keyNotFound := by
  rw [txnGet, if_neg hk]
  have : s.find? (fun e => e.1 == k) = none := by
    rw [List.find?_eq_none]
    intro e he
    simpa using h e he
  rw [this]

/-- An operation that does not put at `p` cannot create a binding for
`p`. -/
theorem unbound_applyOp {s : Store} {p : String} (op : Op)
    (hw : writesTo op p = false) (h : ∀ e ∈ s, e.1 ≠ p) :
    ∀ e ∈ applyOp s op, e.1 ≠ p := by
  cases op with
  | put q v =>
    have hq : q ≠ p := by simpa [writesTo] using hw
    by_cases hq0 : q = ""
    · simpa [applyOp, storeValue, txnSet, hq0] using h
    · intro e he
      rw [applyOp, storeValue, txnSet, if_neg hq0] at he
      simp only [List.mem_cons] at he
      rcases he with rfl | he
      · exact hq
      · exact h e (List.mem_filter.1 he).1
  | del q =>
    by_cases hq0 : q = ""
    · simpa [applyOp, deleteValue, txnDelete, hq0] using h
    · intro e he
      rw [applyOp, deleteValue, txnDelete, if_neg hq0] at he
      exact h e (List.mem_filter.1 he).1

/-- A history that never puts at `p` keeps `p` unbound. -/
theorem unbound_runOpsFrom {p : String} {ops : List Op}
    (hops : unwritten p ops = true) :
    ∀ {s : Store}, (∀ e ∈ s, e.1 ≠ p) → ∀ e ∈ runOpsFrom s ops, e.1 ≠ p := by
  induction ops with
  | nil => intro s h; exact h
  | cons op t ih =>
    intro s h
    have hops' : writesTo op p = false ∧ unwritten p t = true := by
      simpa [unwritten, List.all_cons] using hops
    exact ih hops'.2 (unbound_applyOp op hops'.1 h)

/-! ## C1 — codec round-trip -/

/-- C1 (counterexample): the claim fails as stated.  For the valid
value with `binaryData` present but empty, `omitempty` drops the
`data` field, so decoding the encoding yields an absent `binaryData`
instead of the empty one: the empty-vs-absent distinction is lost. -/
theorem C1_counterexample :
    jsonUnmarshal (jsonMarshal ⟨"", "text/plain", some []⟩) ≠
      (⟨"", "text/plain", some []⟩ : DataValue) := by
  decide

/-- C1 (amended): decoding the encoding of `v` restores all three
fields exactly for every `v` whose `binaryData` is absent or
non-empty; a present-but-empty `binaryData` is the one exception, it
decodes back as absent. -/
theorem C1_roundtrip (v : DataValue) (h : v.data ≠ some []) :
    jsonUnmarshal (jsonMarshal v) = v :=
  marshal_unmarshal v h

/-- C1 witness: the round-trip theorem applied to a concrete value
with non-empty binary data. -/
theorem C1_roundtrip_witness :
    (⟨"", "image/png", some [137, 80, 78, 71]⟩ : DataValue).data ≠ some [] ∧
    jsonUnmarshal (jsonMarshal ⟨"", "image/png", some [137, 80, 78, 71]⟩) =
      (⟨"", "image/png", some [137, 80, 78, 71]⟩ : DataValue) :=
  ⟨by decide, C1_roundtrip ⟨"", "image/png", some [137, 80, 78, 71]⟩ (by decide)⟩

/-! ## C2 — read after write -/

/-- C2 (counterexample): the claim fails as stated.  Putting the valid
value whose `binaryData` is present but empty at path `"a"` succeeds,
but the subsequent get returns the value with `binaryData` absent,
which is not equal to the value that was put. -/
theorem C2_counterexample :
    storeValue [] "a" ⟨"", "text/plain", some []⟩ =
      .ok [("a", ⟨"", "text/plain", none⟩)] ∧
    getValue [("a", ⟨"", "text/plain", none⟩)] "a" ≠
      .ok (⟨"", "text/plain", some []⟩ : DataValue) := by
  constructor
  · decide
  · decide

/-- C2 (amended): for every path `p` and value `v` whose `binaryData`
is not present-but-empty, if `put(p, v)` succeeds then `get(p)`
returns exactly `v`; a present-but-empty `binaryData` comes back
absent instead. -/
theorem C2_read_after_write (s s2 : Store) (p : String) (v : DataValue)
    (hput : storeValue s p v = .ok s2) (hdata : v.data ≠ some []) :
    getValue s2 p = .ok v := by
  obtain ⟨hp, rfl⟩ := txnSet_ok hput
  rw [getValue, txnGet_set_self s p _ hp]
  exact congrArg Except.ok (marshal_unmarshal v hdata)

/-- C2 witness: spec scenario A, put then get of a markdown document
at `docs/readme`. -/
theorem C2_read_after_write_witness :
    storeValue [] "docs/readme" ⟨"# hi", "text/markdown", none⟩ =
      .ok [("docs/readme", ⟨"# hi", "text/markdown", none⟩)] ∧
    getValue [("docs/readme", ⟨"# hi", "text/markdown", none⟩)] "docs/readme" =
      .ok (⟨"# hi", "text/markdown", none⟩ : DataValue) :=
  ⟨by decide,
    C2_read_after_write [] [("docs/readme", ⟨"# hi", "text/markdown", none⟩)]
      "docs/readme" ⟨"# hi", "text/markdown", none⟩ (by decide) (by decide)⟩

/-! ## C3 — overwrite is last-write-wins -/

/-- C3 (counterexample): the claim fails as stated, for the same
reason as the round-trip: overwriting with the valid value whose
`binaryData` is present but empty makes the final get return that
value with `binaryData` absent, not `v2` itself. -/
theorem C3_counterexample :
    storeValue [] "a" ⟨"old", "text/plain", none⟩ =
      .ok [("a", ⟨"old", "text/plain", none⟩)] ∧
    storeValue [("a", ⟨"old", "text/plain", none⟩)] "a" ⟨"", "text/plain", some []⟩ =
      .ok [("a", ⟨"", "text/plain", none⟩)] ∧
    getValue [("a", ⟨"", "text/plain", none⟩)] "a" ≠
      .ok (⟨"", "text/plain", some []⟩ : DataValue) := by
  refine ⟨by decide, by decide, by decide⟩

/-- C3 (amended): `put(p, v1)` then `put(p, v2)` leaves the store in
exactly the state a single `put(p, v2)` would have produced — no trace
of `v1` remains anywhere in the store — and the subsequent `get(p)`
returns `v2` whenever `v2`'s `binaryData` is not present-but-empty
(that one case comes back with `binaryData` absent). -/
theorem C3_overwrite (s s1 s2 : Store) (p : String) (v1 v2 : DataValue)
    (h1 : storeValue s p v1 = .ok s1) (h2 : storeValue s1 p v2 = .ok s2) :
    storeValue s p v2 = .ok s2 ∧
      (v2.data ≠ some [] → getValue s2 p = .ok v2) := by
  obtain ⟨hp, rfl⟩ := txnSet_ok h1
  obtain ⟨-, rfl⟩ := txnSet_ok h2
  refine ⟨?_, ?_⟩
  · rw [storeValue, txnSet, if_neg hp, filter_cons_filter]
  · intro hdata
    rw [filter_cons_filter, getValue, txnGet_set_self s p _ hp]
    exact congrArg Except.ok (marshal_unmarshal v2 hdata)

/-- C3 witness: two puts at the same path; the final state is the one
of a single put of the second value, and get returns the second
value. -/
theorem C3_overwrite_witness :
    storeValue [] "a" ⟨"v1", "text/plain", none⟩ =
      .ok [("a", ⟨"v1", "text/plain", none⟩)] ∧
    storeValue [("a", ⟨"v1", "text/plain", none⟩)] "a" ⟨"v2", "text/html", none⟩ =
      .ok [("a", ⟨"v2", "text/html", none⟩)] ∧
    storeValue [] "a" ⟨"v2", "text/html", none⟩ =
      .ok [("a", ⟨"v2", "text/html", none⟩)] ∧
    getValue [("a", ⟨"v2", "text/html", none⟩)] "a" =
      .ok (⟨"v2", "text/html", none⟩ : DataValue) :=
  ⟨by decide, by decide,
    (C3_overwrite [] [("a", ⟨"v1", "text/plain", none⟩)]
      [("a", ⟨"v2", "text/html", none⟩)] "a" ⟨"v1", "text/plain", none⟩
      ⟨"v2", "text/html", none⟩ (by decide) (by decide)).1,
    (C3_overwrite [] [("a", ⟨"v1", "text/plain", none⟩)]
      [("a", ⟨"v2", "text/html", none⟩)] "a" ⟨"v1", "text/plain", none⟩
      ⟨"v2", "text/html", none⟩ (by decide) (by decide)).2 (by decide)⟩

/-! ## C4 — delete visibility -/

/-- C4: after a successful put at `p` followed by a successful delete
of `p`, a get of `p` returns the `keyNotFound` error. -/
theorem C4_delete_visibility (s s1 s2 : Store) (p : String) (v : DataValue)
    (hput : storeValue s p v = .ok s1) (hdel : deleteValue s1 p = .ok s2) :
    getValue s2 p = .error .keyNotFound := by
  obtain ⟨hp, rfl⟩ := txnSet_ok hput
  obtain ⟨-, rfl⟩ := txnDelete_ok hdel
  rw [filter_cons_filter, getValue, txnGet_filter_self s p hp]

/-- C4 witness: put then delete then get at a concrete path. -/
theorem C4_delete_visibility_witness :
    storeValue [] "docs/readme" ⟨"# hi", "text/markdown", none⟩ =
      .ok [("docs/readme", ⟨"# hi", "text/markdown", none⟩)] ∧
    deleteValue [("docs/readme", ⟨"# hi", "text/markdown", none⟩)] "docs/readme" =
      .ok [] ∧
    getValue ([] : Store) "docs/readme" = .error .keyNotFound :=
  ⟨by decide, by decide,
    C4_delete_visibility [] [("docs/readme", ⟨"# hi", "text/markdown", none⟩)] []
      "docs/readme" ⟨"# hi", "text/markdown", none⟩ (by decide) (by decide)⟩

/-! ## C5 — missing key -/

/-- C5: on a non-empty path that was never written — or whose last
delete was not followed by any rewrite — `getValue` returns the
`keyNotFound` error (no crash, no empty value), `handleGet` maps it to
a 404 response, and `keyNotFound` is a distinct error kind from every
other one in the taxonomy. -/
theorem C5_missing_key (p : String) (ops : List Op) (hp : p ≠ "")
    (h : unwritten p ops = true ∨
      ∃ l1 l2, ops = l1 ++ Op.del p :: l2 ∧ unwritten p l2 = true) :
    getValue (runOps ops) p = .error .keyNotFound ∧
    (handleGet (runOps ops) p).1.status = 404 ∧
    StoreError.keyNotFound ≠ StoreError.emptyKey ∧
    StoreError.keyNotFound ≠ StoreError.decodingError := by
  have hub : ∀ e ∈ runOps ops, e.1 ≠ p := by
    rcases h with h | ⟨l1, l2, rfl, h2⟩
    · exact unbound_runOpsFrom h (by simp)
    · rw [runOps, runOpsFrom, List.foldl_append, List.foldl_cons]
      refine unbound_runOpsFrom h2 ?_
      intro e he
      rw [applyOp, deleteValue, txnDelete, if_neg hp] at he
      simpa using (List.mem_filter.1 he).2
  have hget : getValue (runOps ops) p = .error .keyNotFound := by
    rw [getValue, txnGet_unbound hp hub]
  refine ⟨hget, ?_, by decide, by decide⟩
  unfold handleGet
  rw [hget]
  rfl

/-- C5 witness: a history consisting of one put at a different path
leaves the path unbound; get fails with `keyNotFound` and the handler
answers 404. -/
theorem C5_missing_key_witness :
    ("b" : String) ≠ "" ∧
    unwritten "b" [Op.put "a" ⟨"x", "text/plain", none⟩] = true ∧
    getValue (runOps [Op.put "a" ⟨"x", "text/plain", none⟩]) "b" =
      .error .keyNotFound ∧
    (handleGet (runOps [Op.put "a" ⟨"x", "text/plain", none⟩]) "b").1.status = 404 :=
  ⟨by decide, by decide,
    (C5_missing_key "b" [Op.put "a" ⟨"x", "text/plain", none⟩] (by decide)
      (Or.inl (by decide))).1,
    (C5_missing_key "b" [Op.put "a" ⟨"x", "text/plain", none⟩] (by decide)
      (Or.inl (by decide))).2.1⟩

/-! ## C6 — read-path content precedence -/

/-- C6: for every fetched value, the response carries the stored
content type verbatim; the body is exactly the binary payload when it
is non-empty, and exactly the (UTF-8 bytes of the) text content when
the binary payload is absent or empty. -/
theorem C6_content_precedence (s : Store) (p : String) (v : DataValue)
    (h : getValue s p = .ok v) :
    (handleGet s p).1.status = 200 ∧
    (handleGet s p).1.contentType = some v.contentType ∧
    (∀ bs, v.data = some bs → bs ≠ [] → (handleGet s p).1.body = bs) ∧
    ((v.data = none ∨ v.data = some []) →
      (handleGet s p).1.body = strBytes v.content) := by
  have hred : handleGet s p =
      ({ status := 200
         contentType := some v.contentType
         body := match v.data with
           | some bs => if bs.isEmpty then strBytes v.content else bs
           | none => strBytes v.content }, s) := by
    unfold handleGet
    rw [h]
  rw [hred]
  refine ⟨rfl, rfl, ?_, ?_⟩
  · intro bs hbs hne
    rw [hbs]
    cases bs with
    | nil => exact absurd rfl hne
    | cons b l => rfl
  · rintro (hd | hd)
    · rw [hd]
    · rw [hd]
      rfl

/-- C6 witness: spec scenario B, a stored PNG with a text content also
present is served as the four PNG bytes with the stored content
type. -/
theorem C6_content_precedence_witness :
    getValue [("images/logo", ⟨"ignored", "image/png", some [137, 80, 78, 71]⟩)]
        "images/logo" =
      .ok (⟨"ignored", "image/png", some [137, 80, 78, 71]⟩ : DataValue) ∧
    (handleGet [("images/logo", ⟨"ignored", "image/png", some [137, 80, 78, 71]⟩)]
        "images/logo").1.contentType = some "image/png" ∧
    (handleGet [("images/logo", ⟨"ignored", "image/png", some [137, 80, 78, 71]⟩)]
        "images/logo").1.body = [137, 80, 78, 71] :=
  ⟨by decide,
    (C6_content_precedence
      [("images/logo", ⟨"ignored", "image/png", some [137, 80, 78, 71]⟩)]
      "images/logo" ⟨"ignored", "image/png", some [137, 80, 78, 71]⟩ (by decide)).2.1,
    (C6_content_precedence
      [("images/logo", ⟨"ignored", "image/png", some [137, 80, 78, 71]⟩)]
      "images/logo" ⟨"ignored", "image/png", some [137, 80, 78, 71]⟩
      (by decide)).2.2.1 [137, 80, 78, 71] rfl (by decide)⟩

/-! ## C7 — JSON-write validation -/

/-- C7: a JSON-bodied write whose decoded `content_type` is empty is
rejected with a 400 response and the store is left untouched. -/
theorem C7_json_write_validation (s : Store) (path : String) (dv : DataValue)
    (h : dv.contentType = "") :
    (handlePost s path (some dv)).1.status = 400 ∧
    (handlePost s path (some dv)).2 = s := by
  have hred : handlePost s path (some dv) =
      (httpError "content_type is required" 400, s) := by
    simp only [handlePost]
    rw [if_pos h]
  rw [hred]
  exact ⟨rfl, rfl⟩

/-- C7 witness: a decoded body with empty `content_type` at a concrete
path and store. -/
theorem C7_json_write_validation_witness :
    ((⟨"x", "", none⟩ : DataValue).contentType = "") ∧
    (handlePost [("a", ⟨"y", "text/plain", none⟩)] "b" (some ⟨"x", "", none⟩)).1.status = 400 ∧
    (handlePost [("a", ⟨"y", "text/plain", none⟩)] "b" (some ⟨"x", "", none⟩)).2 =
      [("a", ⟨"y", "text/plain", none⟩)] :=
  ⟨rfl,
    (C7_json_write_validation [("a", ⟨"y", "text/plain", none⟩)] "b"
      ⟨"x", "", none⟩ rfl).1,
    (C7_json_write_validation [("a", ⟨"y", "text/plain", none⟩)] "b"
      ⟨"x", "", none⟩ rfl).2⟩

/-! ## C8 — raw-body write default -/

/-- C8: a raw-body PUT stores a value whose binary payload is exactly
the request body and whose content type is the request's
`Content-Type` header when non-empty and `application/octet-stream`
when the header is absent or empty: the store after the handler is
exactly the result of putting that value. -/
theorem C8_raw_write_default (s : Store) (path : String) (body : Bytes)
    (hdr : String) (hp : path ≠ "") :
    (handlePut s path body hdr).1.status = 200 ∧
    storeValue s path
        { content := ""
          contentType := if hdr = "" then "application/octet-stream" else hdr
          data := some body } =
      .ok (handlePut s path body hdr).2 := by
  have hstore : storeValue s path
      { content := ""
        contentType := if hdr = "" then "application/octet-stream" else hdr
        data := some body } =
      .ok ((path, jsonMarshal
        { content := ""
          contentType := if hdr = "" then "application/octet-stream" else hdr
          data := some body }) :: s.filter (fun e => e.1 != path)) := by
    rw [storeValue, txnSet, if_neg hp]
  unfold handlePut
  rw [hstore]
  exact ⟨rfl, rfl⟩

/-- C8 witness: PUT of two raw bytes with no `Content-Type` header;
the stored value carries the bytes and the
`application/octet-stream` default. -/
theorem C8_raw_write_default_witness :
    ("a" : String) ≠ "" ∧
    (handlePut [] "a" [0, 1] "").1.status = 200 ∧
    storeValue [] "a" ⟨"", "application/octet-stream", some [0, 1]⟩ =
      .ok (handlePut [] "a" [0, 1] "").2 :=
  ⟨by decide, (C8_raw_write_default [] "a" [0, 1] "" (by decide)).1,
    (C8_raw_write_default [] "a" [0, 1] "" (by decide)).2⟩

/-! ## C9 — get is side-effect free -/

/-- C9: serving a GET leaves the store exactly as it was: the state
after `handleGet` is the input state, so every key's binding — present
or absent — is unchanged. -/
theorem C9_get_side_effect_free (s : Store) (p k : String) :
    (handleGet s p).2 = s ∧
    txnGet ((handleGet s p).2) k = txnGet s k := by
  have h2 : (handleGet s p).2 = s := by
    unfold handleGet
    rcases hg : getValue s p with e | v
    · cases e <;> rfl
    · rfl
  exact ⟨h2, by rw [h2]⟩

/-! ## C10 — delete succeeds on absent keys -/

/-- C10: the store-level delete succeeds on every non-empty path key;
on a key holding no value it succeeds as a no-op (the store is
unchanged), and the 404 for an HTTP DELETE of an absent path comes
solely from the handler's existence check via get, which answers 404
and never reaches the delete. -/
theorem C10_delete_absent_noop (s : Store) (p : String) (hp : p ≠ "") :
    (∃ s2, deleteValue s p = .ok s2) ∧
    (txnGet s p = .error .keyNotFound →
      deleteValue s p = .ok s ∧
      (handleDelete s p).1.status = 404 ∧
      (handleDelete s p).2 = s) := by
  refine ⟨⟨s.filter (fun e => e.1 != p), by rw [deleteValue, txnDelete, if_neg hp]⟩, ?_⟩
  intro habs
  have hmem : ∀ e ∈ s, (fun e : String × EncodedValue => e.1 != p) e = true := by
    rw [txnGet, if_neg hp] at habs
    intro e he
    rcases hfind : s.find? (fun e => e.1 == p) with _ | e2
    · have := List.find?_eq_none.1 hfind e he
      simpa using this
    · simp [hfind] at habs
  have hfilter : s.filter (fun e => e.1 != p) = s := List.filter_eq_self.2 hmem
  have hdel : deleteValue s p = .ok s := by
    rw [deleteValue, txnDelete, if_neg hp, hfilter]
  have hget : getValue s p = .error .keyNotFound := by
    rw [getValue, habs]
  have h404 : handleDelete s p =
      (httpError ("Path \x27" ++ p ++ "\x27 not found") 404, s) := by
    unfold handleDelete
    rw [hget]
  rw [h404]
  exact ⟨hdel, rfl, rfl⟩

/-- C10 witness: deleting a key absent from a concrete one-entry store
succeeds without changing the store, and the DELETE handler answers
404 there. -/
theorem C10_delete_absent_noop_witness :
    ("b" : String) ≠ "" ∧
    deleteValue [("a", ⟨"x", "text/plain", none⟩)] "b" =
      .ok [("a", ⟨"x", "text/plain", none⟩)] ∧
    (handleDelete [("a", ⟨"x", "text/plain", none⟩)] "b").1.status = 404 ∧
    (handleDelete [("a", ⟨"x", "text/plain", none⟩)] "b").2 =
      [("a", ⟨"x", "text/plain", none⟩)] :=
  ⟨by decide,
    ((C10_delete_absent_noop [("a", ⟨"x", "text/plain", none⟩)] "b"
      (by decide)).2 (by decide)).1,
    ((C10_delete_absent_noop [("a", ⟨"x", "text/plain", none⟩)] "b"
      (by decide)).2 (by decide)).2.1,
    ((C10_delete_absent_noop [("a", ⟨"x", "text/plain", none⟩)] "b"
      (by decide)).2 (by decide)).2.2⟩

end Flowerpot
